import Mathlib

/-!
Verification of the react-precognition core: the vector intent scoring
engine (`src/vector-intent.ts`) and the speculation lifecycle controller
(`src/usePrecognition.ts`).

The engine is embedded over the real numbers (every JavaScript float is a
real number; arithmetic is modelled exactly).  The one JavaScript artefact
that matters to the claims is `NaN`: in `getIntentScore`, when the
normalisation steps divide `0` by `0` (late-half speed `0`, or distance to
the target centre `0`), the JavaScript code produces `NaN`, every
subsequent comparison on it is false, and the final clamped score is
`NaN`.  We model the returned score as `Option ℝ`, with `none` standing
for a `NaN` return and `some x` for an ordinary numeric return.

The controller is embedded as an explicit state structure plus a step
function over the events that can reach it: sampler ticks (carrying the
computed score), settlement of an issued action promise (resolution or
rejection), the grace-timer callback firing, `commit()`, and unmount.
-/

namespace Precognition

/-- A pointer position sample (`Point` in `src/vector-intent.ts`). -/
structure Point where
  x : ℝ
  y : ℝ
  timestamp : ℝ

/-- A target bounding box (the fields of `DOMRect` that the engine reads). -/
structure Rect where
  left : ℝ
  top : ℝ
  right : ℝ
  bottom : ℝ
  width : ℝ
  height : ℝ

/-- Engine parameters (`VectorConfig` in `src/vector-intent.ts`). -/
structure VectorConfig where
  historySize : ℕ
  noiseThreshold : ℝ
  maxInfluenceDistance : ℝ
  decelerationWeight : ℝ

/-- The default engine parameters (`DEFAULT_CONFIG` in `src/vector-intent.ts`). -/
def DEFAULT_CONFIG : VectorConfig :=
  { historySize := 6
    noiseThreshold := 0.05
    maxInfluenceDistance := 800
    decelerationWeight := 0.3 }

/-- The default sample used for (always in-bounds) list indexing. -/
def defaultPoint : Point := ⟨0, 0, 0⟩

/-- The trailing window taken by `globalHistory.slice(-this.config.historySize)`.
JavaScript `slice(-0)` is `slice(0)`, which keeps the whole array; for
`historySize ≥ 1` it keeps the trailing `min historySize length` samples. -/
def relevantHistoryOf (cfg : VectorConfig) (globalHistory : List Point) : List Point :=
  if cfg.historySize = 0 then globalHistory
  else globalHistory.drop (globalHistory.length - cfg.historySize)

open scoped Classical in
/-- Shallow embedding of `VectorIntentEngine.getIntentScore`
(`src/vector-intent.ts`, lines 36–110).  `none` models a `NaN` return:
when the noise gate is passed with `speed2 = 0` (possible only when
`noiseThreshold ≤ 0`) or with `distanceToTarget = 0`, the JavaScript
normalisation computes `0/0 = NaN`, the `alignment <= 0` and
`alignment > 0.8` comparisons on `NaN` are false, and
`Math.min(Math.max(NaN, 0), 1)` returns `NaN`. -/
noncomputable def getIntentScore (cfg : VectorConfig) (targetRect : Rect)
    (globalHistory : List Point) : Option ℝ :=
  -- 1. DATA SUFFICIENCY CHECK
  let relevantHistory := relevantHistoryOf cfg globalHistory
  if relevantHistory.length < 3 then some 0
  else
    let current := relevantHistory.getD (relevantHistory.length - 1) defaultPoint
    -- 2. HIT TEST
    if current.x ≥ targetRect.left ∧ current.x ≤ targetRect.right ∧
        current.y ≥ targetRect.top ∧ current.y ≤ targetRect.bottom then
      some 1
    else
      -- 3. TARGET GEOMETRY
      let targetCenterX := targetRect.left + targetRect.width / 2
      let targetCenterY := targetRect.top + targetRect.height / 2
      let dx := targetCenterX - current.x
      let dy := targetCenterY - current.y
      let distanceToTarget := Real.sqrt (dx * dx + dy * dy)
      if distanceToTarget > cfg.maxInfluenceDistance then some 0
      else
        -- 4. PHYSICS
        let midIndex := relevantHistory.length / 2
        let startPoint := relevantHistory.getD 0 defaultPoint
        let midPoint := relevantHistory.getD midIndex defaultPoint
        let endPoint := current
        let dt1 := midPoint.timestamp - startPoint.timestamp
        let speed1 :=
          if dt1 > 0 then
            Real.sqrt ((midPoint.x - startPoint.x) ^ 2 + (midPoint.y - startPoint.y) ^ 2) / dt1
          else 0
        let dt2 := endPoint.timestamp - midPoint.timestamp
        let vx := if dt2 > 0 then (endPoint.x - midPoint.x) / dt2 else 0
        let vy := if dt2 > 0 then (endPoint.y - midPoint.y) / dt2 else 0
        let speed2 := Real.sqrt (vx ^ 2 + vy ^ 2)
        if speed2 < cfg.noiseThreshold then some 0
        else if speed2 = 0 ∨ distanceToTarget = 0 then none
        else
          -- 5. ALIGNMENT
          let vxn := vx / speed2
          let vyn := vy / speed2
          let dxn := dx / distanceToTarget
          let dyn := dy / distanceToTarget
          let alignment := vxn * dxn + vyn * dyn
          if alignment ≤ 0 then some 0
          else
            -- 6. SCORING
            let alignmentScore := alignment ^ 3
            let distanceScore := 1 - distanceToTarget / cfg.maxInfluenceDistance
            let decelerationBonus :=
              if speed2 < speed1 ∧ alignment > 0.8 then
                min (1 - speed2 / speed1) 1 * cfg.decelerationWeight
              else 0
            let totalScore := alignmentScore * distanceScore + decelerationBonus
            some (min (max totalScore 0) 1)

/-- The last sample of a history (`relevantHistory[relevantHistory.length - 1]`). -/
def lastSample (history : List Point) : Point :=
  history.getD (history.length - 1) defaultPoint

/-- The hit-test predicate of step 2 of the engine: the sample lies within
the target bounds, inclusive on all four edges. -/
def insideRect (r : Rect) (p : Point) : Prop :=
  p.x ≥ r.left ∧ p.x ≤ r.right ∧ p.y ≥ r.top ∧ p.y ≤ r.bottom

/-- Straight-line distance from a sample to the target's centre, exactly as
the engine computes it (`Math.sqrt(dx*dx + dy*dy)`). -/
noncomputable def distToCenter (r : Rect) (p : Point) : ℝ :=
  Real.sqrt ((r.left + r.width / 2 - p.x) * (r.left + r.width / 2 - p.x) +
    (r.top + r.height / 2 - p.y) * (r.top + r.height / 2 - p.y))

/-- The trailing `n` samples of a history, as the spec's windowing clause
describes them (for `n = 0` this is the empty list). -/
def trailing (n : ℕ) (history : List Point) : List Point :=
  history.drop (history.length - n)

/-- The target rectangle used by the repository's engine tests: a 100×100
square at (200, 200). -/
def testTarget : Rect := ⟨200, 200, 300, 300, 100, 100⟩

/-- The "detects strong intent" test history: constant-speed horizontal
motion straight toward `testTarget`, at an arbitrary base timestamp. -/
def hist9 (t0 : ℝ) : List Point :=
  [⟨0, 250, t0⟩, ⟨50, 250, t0 + 16⟩, ⟨100, 250, t0 + 32⟩]

/-- A single-sample history whose only (hence last) sample lies inside
`testTarget`. -/
def histInside1 : List Point := [⟨250, 250, 0⟩]

/-- The repository's "cursor inside target" test history: three samples,
the last inside `testTarget`. -/
def histInside3 : List Point := [⟨0, 0, 0⟩, ⟨100, 100, 10⟩, ⟨250, 250, 20⟩]

/-- A history approaching `testTarget` whose last sample is 850 px from the
target centre — outside the default 800 px influence radius. -/
def histFar : List Point := [⟨2000, 250, 0⟩, ⟨1500, 250, 16⟩, ⟨1100, 250, 32⟩]

/-- A large target: a 1000×1000 square at the origin, whose centre is
(500, 500). -/
def bigTarget : Rect := ⟨0, 0, 1000, 1000, 1000, 1000⟩

/-- A history of stationary samples at the origin: inside `bigTarget`
(inclusive bounds) yet 500·√2 px away from its centre. -/
def histCorner : List Point := [⟨0, 0, 0⟩, ⟨0, 0, 16⟩, ⟨0, 0, 32⟩]

/-- Default parameters except for a small influence radius. -/
def cfgLowInfluence : VectorConfig := { DEFAULT_CONFIG with maxInfluenceDistance := 100 }

/-- Default parameters except `noiseThreshold = 0`. -/
def cfgZeroNoise : VectorConfig :=
  { historySize := 6, noiseThreshold := 0, maxInfluenceDistance := 800,
    decelerationWeight := 0.3 }

/-- Three coincident samples taken in the same tick (equal timestamps),
placed outside `testTarget` but within its influence radius. -/
def histStill : List Point := [⟨0, 0, 0⟩, ⟨0, 0, 0⟩, ⟨0, 0, 0⟩]

/-! ## The speculation lifecycle controller (`src/usePrecognition.ts`)

The hook's per-instance state is embedded as an explicit structure.  The
React state variables (`status`, `result`) and the refs (`statusRef`,
`shadowPromise`, `graceTimer`, `abortController`, `isMounted`) become
fields; `transitionTo` updates `statusRef` and queues the React update
together, so a single `status` field models both.  Promises are named by
the natural number `nextHandle` at their creation; `pending` is the set of
issued, not-yet-settled promises (a real promise settles exactly once),
`outcomes` records the value each resolved promise settled with, and
`abortSignalled` records the `AbortController`s that have had `abort()`
called.  `invocations` counts calls of the user's `action`.  Scores and
`sensitivity` are rationals (every JavaScript number is rational), and the
result type `α` is arbitrary; `commit`'s JavaScript truthiness test on
`result` is supplied as a function `truthy : α → Bool`.

The tick handler's early return `!targetRef.current || !isEnvironmentSafe`
is modelled by the `envSafe` flag (a watched, attached target in a safe
environment); `gracePeriod` and `debug` affect no transition decision (the
timer's delay is abstracted by the explicit `graceFire` event, and `debug`
only logs), so the controller configuration carries `sensitivity` alone. -/

/-- `SpeculationStatus` in `src/usePrecognition.ts`. -/
inductive SpeculationStatus
  | idle
  | speculating
  | ready
  | committed
deriving DecidableEq

/-- The controller configuration fields that drive transitions. -/
structure PrecognitionConfig where
  sensitivity : ℚ

/-- The mutable state of one `usePrecognition` controller instance. -/
structure ControllerState (α : Type) where
  status : SpeculationStatus
  result : Option α
  shadowPromise : Option ℕ
  graceTimer : Bool
  abortController : Option ℕ
  mounted : Bool
  envSafe : Bool
  nextHandle : ℕ
  pending : List ℕ
  invocations : ℕ
  abortSignalled : List ℕ
  outcomes : ℕ → Option α

/-- The state of a freshly mounted controller. -/
def initialState (α : Type) : ControllerState α :=
  { status := .idle, result := none, shadowPromise := none, graceTimer := false,
    abortController := none, mounted := true, envSafe := true, nextHandle := 0,
    pending := [], invocations := 0, abortSignalled := [], outcomes := fun _ => none }

/-- `transitionTo`: synchronous `statusRef` update plus the queued React
`setStatus`, collapsed into the single authoritative `status` field. -/
def transitionTo (s : ControllerState α) (newStatus : SpeculationStatus) : ControllerState α :=
  { s with status := newStatus }

/-- `triggerSpeculation` (lines 78–111): no-op while a shadow promise
exists; otherwise transition to `speculating`, create an
`AbortController`, invoke the action (issuing a fresh promise handle) and
store it as the shadow promise. -/
def triggerSpeculation (s : ControllerState α) : ControllerState α :=
  if s.shadowPromise.isSome then s
  else
    let s1 := transitionTo s .speculating
    let h := s1.nextHandle
    { s1 with
      abortController := some h, shadowPromise := some h,
      nextHandle := h + 1, pending := s1.pending ++ [h],
      invocations := s1.invocations + 1 }

/-- The `.then` callback attached in `triggerSpeculation` (lines 91–103):
applied when promise `h` resolves with `data`.  Guarded by `isMounted` and
by identity of the in-flight handle; sets the result, and transitions to
`ready` only if not already `committed`. -/
def onResolve (s : ControllerState α) (h : ℕ) (data : α) : ControllerState α :=
  if ¬ s.mounted then s
  else if s.shadowPromise = some h then
    let s1 := { s with result := some data }
    if s1.status ≠ .committed then transitionTo s1 .ready else s1
  else s

/-- The `.catch` callback attached in `triggerSpeculation` (lines
104–110): on any rejection (abort or failure — only the logging differs),
if still mounted and the handle is still current, clear the shadow promise
and return to `idle`. -/
def onReject (s : ControllerState α) (h : ℕ) : ControllerState α :=
  if s.mounted ∧ s.shadowPromise = some h then
    transitionTo { s with shadowPromise := none } .idle
  else s

/-- `cancelSpeculation` (lines 113–120): signal `abort()` on the current
`AbortController` (if any), drop the shadow promise and return to `idle`. -/
def cancelSpeculation (s : ControllerState α) : ControllerState α :=
  let s1 :=
    match s.abortController with
    | some h => { s with abortSignalled := s.abortSignalled ++ [h], abortController := none }
    | none => s
  transitionTo { s1 with shadowPromise := none } .idle

/-- `handleTick` (lines 123–176): the per-tick state-machine step, driven
by the score computed for this tick.  `abortThreshold` is
`sensitivity * 0.4`. -/
def handleTick (cfg : PrecognitionConfig) (s : ControllerState α) (score : ℚ) :
    ControllerState α :=
  if ¬ (s.mounted ∧ s.envSafe) then s
  else
    let abortThreshold := cfg.sensitivity * (2 / 5)
    match s.status with
    | .idle => if score > cfg.sensitivity then triggerSpeculation s else s
    | .speculating => if score < abortThreshold then cancelSpeculation s else s
    | .ready =>
        if score < abortThreshold then
          if s.graceTimer then s else { s with graceTimer := true }
        else
          if s.graceTimer then { s with graceTimer := false } else s
    | .committed => s

/-- The grace-timer callback (lines 149–155), which runs when the armed
timeout fires: discard the cached result and shadow promise and return to
`idle` — with no check of the current status. -/
def graceTimerFire (s : ControllerState α) : ControllerState α :=
  if s.graceTimer then
    transitionTo { s with result := none, shadowPromise := none, graceTimer := false } .idle
  else s

/-- What `commit()` hands back to the caller. -/
inductive CommitOutcome (α : Type)
  | cachedResult (v : α)
  | inFlightPromise (h : ℕ)
  | freshInvocation (h : ℕ)
deriving DecidableEq

/-- The two fallback branches of `commit()` (lines 198–203): return the
in-flight shadow promise if one exists, else invoke the action fresh.  The
fresh promise is returned directly — it is never stored in
`shadowPromise`, and no `.then`/`.catch` callbacks are attached to it. -/
def commitFallback (s : ControllerState α) : ControllerState α × CommitOutcome α :=
  match s.shadowPromise with
  | some h => (transitionTo s .committed, .inFlightPromise h)
  | none =>
      let h := s.nextHandle
      ({ transitionTo s .committed with
         nextHandle := h + 1,
         pending := s.pending ++ [h], invocations := s.invocations + 1 },
       .freshInvocation h)

/-- `commit` (lines 191–204): if `status === "ready" && result` (JavaScript
truthiness), return the cached result; otherwise fall back to the shadow
promise or a fresh invocation.  Always transitions to `committed`. -/
def commit (truthy : α → Bool) (s : ControllerState α) : ControllerState α × CommitOutcome α :=
  match s.result with
  | some v =>
      if s.status = .ready ∧ truthy v then (transitionTo s .committed, .cachedResult v)
      else commitFallback s
  | none => commitFallback s

/-- The unmount cleanup (lines 183–188): mark unmounted, clear the grace
timer, and `abort()` the current controller (whose ref is not nulled). -/
def unmountCleanup (s : ControllerState α) : ControllerState α :=
  let s1 := { s with mounted := false, graceTimer := false }
  match s1.abortController with
  | some h => { s1 with abortSignalled := s1.abortSignalled ++ [h] }
  | none => s1

/-- The events that can reach a controller: a sampler tick carrying this
tick's score, settlement of an issued promise (resolution or rejection —
`isAbortError` only selects the logging path), the armed grace timer
firing, a `commit()` call, and unmount. -/
inductive ControllerEvent (α : Type)
  | tick (score : ℚ)
  | resolve (handle : ℕ) (data : α)
  | reject (handle : ℕ) (isAbortError : Bool)
  | graceFire
  | commitCall
  | unmount

/-- Settlement of promise `handle` by resolution: a promise settles at most
once (the `pending` guard), its outcome is recorded, then the `.then`
callback runs. -/
def settleResolve (s : ControllerState α) (handle : ℕ) (data : α) : ControllerState α :=
  if handle ∈ s.pending then
    onResolve
      { s with
        pending := s.pending.erase handle,
        outcomes := fun k => if k = handle then some data else s.outcomes k }
      handle data
  else s

/-- Settlement of promise `handle` by rejection: the `pending` guard, then
the `.catch` callback. -/
def settleReject (s : ControllerState α) (handle : ℕ) : ControllerState α :=
  if handle ∈ s.pending then onReject { s with pending := s.pending.erase handle } handle
  else s

/-- One event step of a controller.  A tick after unmount cannot occur (the
cleanup unsubscribed), which the `mounted` guard in `handleTick` models. -/
def step (cfg : PrecognitionConfig) (truthy : α → Bool) (s : ControllerState α) :
    ControllerEvent α → ControllerState α
  | .tick score => handleTick cfg s score
  | .resolve handle data => settleResolve s handle data
  | .reject handle _ => settleReject s handle
  | .graceFire => graceTimerFire s
  | .commitCall => (commit truthy s).1
  | .unmount => unmountCleanup s

/-- Run a controller through a sequence of events. -/
def run (cfg : PrecognitionConfig) (truthy : α → Bool) (s : ControllerState α) :
    List (ControllerEvent α) → ControllerState α
  | [] => s
  | e :: es => run cfg truthy (step cfg truthy s e) es

/-- The inductive invariant of a controller.  Every state reachable from
`initialState` satisfies it. -/
structure Inv (s : ControllerState α) : Prop where
  envSafe_eq : s.envSafe = true
  idle_shadow : s.status = .idle → s.shadowPromise = none
  idle_result : s.status = .idle → s.result = none
  spec_result : s.status = .speculating → s.result = none
  spec_abort : s.status = .speculating → s.abortController = s.shadowPromise
  ready_cache : s.status = .ready →
    ∃ h v, s.shadowPromise = some h ∧ s.result = some v ∧ s.outcomes h = some v
  committed_pending_result : s.status = .committed → ∀ h, s.shadowPromise = some h →
    h ∈ s.pending → s.result = none
  pending_unsettled : ∀ h ∈ s.pending, s.outcomes h = none
  pending_lt : ∀ h ∈ s.pending, h < s.nextHandle
  pending_nodup : s.pending.Nodup
  future_unsettled : ∀ h, s.nextHandle ≤ h → s.outcomes h = none

/-- JavaScript truthiness for a numeric result type. -/
def intTruthy : ℤ → Bool := fun v => v != 0

/-- A controller configured with `sensitivity = 0.5` (the source default). -/
def cfgHalf : PrecognitionConfig := ⟨1 / 2⟩

/-- Trigger speculation, resolve it, let the score decay (arming the grace
timer), then commit: the scenario exhibiting the post-commit grace-timer
firing. -/
def c1Events : List (ControllerEvent ℤ) := [.tick 1, .resolve 0 1, .tick 0, .commitCall]

/-! ## Lemmas about the engine's trailing window -/

theorem getD_drop_last {α : Type} (l : List α) (k : ℕ) (hk : k < l.length) (d : α) :
    (l.drop k).getD ((l.drop k).length - 1) d = l.getD (l.length - 1) d := by
  rw [List.getD_eq_getElem?_getD, List.getD_eq_getElem?_getD, List.getElem?_drop,
    List.length_drop]
  rw [show k + (l.length - k - 1) = l.length - 1 by omega]

theorem relevantHistoryOf_lastSample (cfg : VectorConfig) (h : List Point)
    (hne : relevantHistoryOf cfg h ≠ []) :
    lastSample (relevantHistoryOf cfg h) = lastSample h := by
  unfold relevantHistoryOf at hne ⊢
  by_cases h0 : cfg.historySize = 0
  · rw [if_pos h0]
  · rw [if_neg h0] at hne ⊢
    have hk : h.length - cfg.historySize < h.length := by
      rcases Nat.eq_zero_or_pos h.length with hz | hpos

      · exfalso
        apply hne
        rw [List.eq_nil_of_length_eq_zero hz]
        exact List.drop_nil
      · omega
    exact getD_drop_last h (h.length - cfg.historySize) hk defaultPoint

theorem relevantHistoryOf_trailing (cfg : VectorConfig) (h : List Point)
    (hn : 1 ≤ cfg.historySize) :
    relevantHistoryOf cfg (trailing cfg.historySize h) = relevantHistoryOf cfg h := by
  unfold relevantHistoryOf trailing
  rw [if_neg (by omega), if_neg (by omega), List.length_drop]
  rw [show h.length - (h.length - cfg.historySize) - cfg.historySize = 0 by omega,
    List.drop_zero]

theorem getIntentScore_eq_of_relevant_eq (cfg : VectorConfig) (r : Rect)
    {h1 h2 : List Point} (hrel : relevantHistoryOf cfg h1 = relevantHistoryOf cfg h2) :
    getIntentScore cfg r h1 = getIntentScore cfg r h2 := by
  unfold getIntentScore
  rw [hrel]

/-- Evaluation of the engine on the "strong intent" scenario: for any base
timestamp and any configured history size that keeps all three samples in
the window, the score is exactly 13/16 = 0.8125. -/
theorem getIntentScore_hist9 (t0 : ℝ) (n : ℕ) (hn : n = 0 ∨ 3 ≤ n) :
    getIntentScore ⟨n, 0.05, 800, 0.3⟩ testTarget (hist9 t0) = some (13 / 16) := by
  have hlen3 : (hist9 t0).length = 3 := rfl
  have hrel : relevantHistoryOf ⟨n, 0.05, 800, 0.3⟩ (hist9 t0) = hist9 t0 := by
    unfold relevantHistoryOf
    dsimp only
    rcases hn with h0 | h3
    · rw [if_pos h0]
    · rw [if_neg (by omega), hlen3, show 3 - n = 0 by omega, List.drop_zero]
  have hs1 : Real.sqrt (22500 : ℝ) = 150 := by
    rw [show (22500 : ℝ) = 150 ^ 2 by norm_num, Real.sqrt_sq (by norm_num)]
  have hs2 : Real.sqrt ((625 : ℝ) / 64) = 25 / 8 := by
    rw [show (625 : ℝ) / 64 = (25 / 8) ^ 2 by norm_num, Real.sqrt_sq (by norm_num)]
  have hs3 : Real.sqrt ((2500 : ℝ)) = 50 := by
    rw [show (2500 : ℝ) = 50 ^ 2 by norm_num, Real.sqrt_sq (by norm_num)]
  have hdt2 : t0 + 32 - (t0 + 16) = (16 : ℝ) := by ring
  simp only [getIntentScore, hrel]
  norm_num [hlen3, hist9, hdt2, hs1, hs2, hs3, testTarget, add_sub_cancel_left]

/-- Claim C2 (amended): for every target geometry and every history whose
trailing window holds at least 3 samples and whose last sample lies within
the target bounds (inclusive on all four edges), `getIntentScore` returns
exactly 1.0, regardless of the velocity of the samples. -/
theorem C2_inside_target_scores_one (cfg : VectorConfig) (r : Rect) (h : List Point)
    (hlen : 3 ≤ (relevantHistoryOf cfg h).length)
    (hin : insideRect r (lastSample h)) :
    getIntentScore cfg r h = some 1 := by
  have hne : relevantHistoryOf cfg h ≠ [] := by
    intro he
    rw [he] at hlen
    simp at hlen
  have hcur : (relevantHistoryOf cfg h).getD ((relevantHistoryOf cfg h).length - 1)
      defaultPoint = lastSample h := relevantHistoryOf_lastSample cfg h hne
  have hin' : (lastSample h).x ≥ r.left ∧ (lastSample h).x ≤ r.right ∧
      (lastSample h).y ≥ r.top ∧ (lastSample h).y ≤ r.bottom := hin
  simp only [getIntentScore]
  rw [if_neg (by omega), hcur, if_pos hin']

/-- Claim C2 counterexample: a single-sample history whose (only, hence
last) sample lies inside the target scores 0, not 1 — the sufficiency
check precedes the hit test. -/
theorem C2_counterexample :
    insideRect testTarget (lastSample histInside1) ∧ histInside1.length < 3 ∧
    getIntentScore DEFAULT_CONFIG testTarget histInside1 = some 0 ∧
    getIntentScore DEFAULT_CONFIG testTarget histInside1 ≠ some 1 := by
  have hscore : getIntentScore DEFAULT_CONFIG testTarget histInside1 = some 0 := by
    simp only [getIntentScore, relevantHistoryOf, DEFAULT_CONFIG, histInside1]
    norm_num
  refine ⟨?_, by norm_num [histInside1], hscore, by rw [hscore]; simp⟩
  show insideRect testTarget (⟨250, 250, 0⟩ : Point)
  constructor <;> norm_num [testTarget]

/-- Witness for the amended claim C2, at the repository's own "cursor
inside target" test input. -/
theorem C2_witness :
    getIntentScore DEFAULT_CONFIG testTarget histInside3 = some 1 := by
  apply C2_inside_target_scores_one
  · norm_num [relevantHistoryOf, DEFAULT_CONFIG, histInside3]
  · show insideRect testTarget (⟨250, 250, 20⟩ : Point)
    constructor <;> norm_num [testTarget]

/-- Claim C3 (amended): for every target geometry and every history whose
last sample's straight-line distance to the target's centre exceeds
`maxInfluenceDistance` and does not lie within the target bounds (the hit
test precedes the proximity gate), `getIntentScore` returns 0. -/
theorem C3_beyond_influence_scores_zero (cfg : VectorConfig) (r : Rect) (h : List Point)
    (hd : distToCenter r (lastSample h) > cfg.maxInfluenceDistance)
    (hni : ¬ insideRect r (lastSample h)) :
    getIntentScore cfg r h = some 0 := by
  by_cases hlen : (relevantHistoryOf cfg h).length < 3
  · simp only [getIntentScore]
    rw [if_pos hlen]
  · have hne : relevantHistoryOf cfg h ≠ [] := by
      intro he
      rw [he] at hlen
      simp at hlen
    have hcur : (relevantHistoryOf cfg h).getD ((relevantHistoryOf cfg h).length - 1)
        defaultPoint = lastSample h := relevantHistoryOf_lastSample cfg h hne
    have hni' : ¬((lastSample h).x ≥ r.left ∧ (lastSample h).x ≤ r.right ∧
        (lastSample h).y ≥ r.top ∧ (lastSample h).y ≤ r.bottom) := hni
    have hd' : Real.sqrt
        ((r.left + r.width / 2 - (lastSample h).x) * (r.left + r.width / 2 - (lastSample h).x) +
          (r.top + r.height / 2 - (lastSample h).y) *
            (r.top + r.height / 2 - (lastSample h).y)) >
        cfg.maxInfluenceDistance := hd
    simp only [getIntentScore]
    rw [if_neg hlen, hcur, if_neg hni', if_pos hd']

/-- Claim C3 counterexample: a history ending inside a large target but
more than `maxInfluenceDistance` from its centre scores 1.0, not 0 — the
hit test fires before the proximity gate. -/
theorem C3_counterexample :
    distToCenter bigTarget (lastSample histCorner) > cfgLowInfluence.maxInfluenceDistance ∧
    getIntentScore cfgLowInfluence bigTarget histCorner = some 1 ∧
    getIntentScore cfgLowInfluence bigTarget histCorner ≠ some 0 := by
  have hscore : getIntentScore cfgLowInfluence bigTarget histCorner = some 1 := by
    simp only [getIntentScore, relevantHistoryOf, cfgLowInfluence, DEFAULT_CONFIG, bigTarget,
      histCorner]
    norm_num [show (histCorner).getD 2 defaultPoint = ⟨0, 0, 32⟩ from rfl, histCorner]
  refine ⟨?_, hscore, by rw [hscore]; simp⟩
  show (cfgLowInfluence.maxInfluenceDistance : ℝ) < distToCenter bigTarget (lastSample histCorner)
  have hdist : distToCenter bigTarget (lastSample histCorner) = Real.sqrt 500000 := by
    simp only [distToCenter, bigTarget,
      show lastSample histCorner = ⟨0, 0, 32⟩ from rfl]
    norm_num
  rw [hdist, show (cfgLowInfluence.maxInfluenceDistance : ℝ) = 100 from rfl,
    Real.lt_sqrt (by norm_num)]
  norm_num

/-- Witness for the amended claim C3: with the default 800 px influence
radius, a history ending 850 px from the target centre (outside the
target) scores 0. -/
theorem C3_witness :
    getIntentScore DEFAULT_CONFIG testTarget histFar = some 0 := by
  apply C3_beyond_influence_scores_zero
  · show (DEFAULT_CONFIG.maxInfluenceDistance : ℝ) < distToCenter testTarget (lastSample histFar)
    have hdist : distToCenter testTarget (lastSample histFar) = Real.sqrt 722500 := by
      simp only [distToCenter, testTarget,
        show lastSample histFar = ⟨1100, 250, 32⟩ from rfl]
      norm_num
    rw [hdist, show (DEFAULT_CONFIG.maxInfluenceDistance : ℝ) = 800 from rfl,
      Real.lt_sqrt (by norm_num)]
    norm_num
  · show ¬ insideRect testTarget (⟨1100, 250, 32⟩ : Point)
    intro hi
    obtain ⟨-, hx, -, -⟩ := hi
    rw [show testTarget.right = (300 : ℝ) from rfl] at hx
    norm_num at hx

/-- Claim C4 (amended): for every configuration with `noiseThreshold > 0`,
every well-formed target geometry (`width = right - left ≥ 0` and
`height = bottom - top ≥ 0`, as for a `DOMRect`), and every history, the
score is a real number in [0, 1] — never `NaN`.  (For
`noiseThreshold = 0` the code can return `NaN` — see the
counterexample.) -/
theorem C4_score_in_unit_interval (cfg : VectorConfig) (r : Rect) (h : List Point)
    (hnoise : 0 < cfg.noiseThreshold)
    (hw : r.width = r.right - r.left) (hh : r.height = r.bottom - r.top)
    (hlr : r.left ≤ r.right) (htb : r.top ≤ r.bottom) :
    ∃ x, getIntentScore cfg r h = some x ∧ 0 ≤ x ∧ x ≤ 1 := by
  have hbound : ∀ t : ℝ, 0 ≤ min (max t 0) 1 ∧ min (max t 0) 1 ≤ 1 := fun t =>
    ⟨le_min (le_max_right t 0) zero_le_one, min_le_right _ 1⟩
  simp only [getIntentScore]
  generalize relevantHistoryOf cfg h = l
  generalize l.getD (l.length - 1) defaultPoint = c
  generalize l.getD (l.length / 2) defaultPoint = m
  generalize l.getD 0 defaultPoint = sp
  by_cases h1 : l.length < 3
  · rw [if_pos h1]
    exact ⟨0, rfl, le_refl 0, zero_le_one⟩
  rw [if_neg h1]
  by_cases h2 : c.x ≥ r.left ∧ c.x ≤ r.right ∧ c.y ≥ r.top ∧ c.y ≤ r.bottom
  · rw [if_pos h2]
    exact ⟨1, rfl, zero_le_one, le_refl 1⟩
  rw [if_neg h2]
  set d : ℝ := Real.sqrt ((r.left + r.width / 2 - c.x) * (r.left + r.width / 2 - c.x) +
    (r.top + r.height / 2 - c.y) * (r.top + r.height / 2 - c.y)) with hd
  by_cases h3 : d > cfg.maxInfluenceDistance
  · rw [if_pos h3]
    exact ⟨0, rfl, le_refl 0, zero_le_one⟩
  rw [if_neg h3]
  set vx : ℝ := if c.timestamp - m.timestamp > 0 then (c.x - m.x) / (c.timestamp - m.timestamp)
    else 0 with hvx
  set vy : ℝ := if c.timestamp - m.timestamp > 0 then (c.y - m.y) / (c.timestamp - m.timestamp)
    else 0 with hvy
  set s2 : ℝ := Real.sqrt (vx ^ 2 + vy ^ 2) with hs2
  by_cases h4 : s2 < cfg.noiseThreshold
  · rw [if_pos h4]
    exact ⟨0, rfl, le_refl 0, zero_le_one⟩
  rw [if_neg h4]
  by_cases h5 : s2 = 0 ∨ d = 0
  · exfalso
    rcases h5 with h5a | h5b
    · rw [h5a] at h4
      exact h4 hnoise
    · have hsum : (r.left + r.width / 2 - c.x) * (r.left + r.width / 2 - c.x) +
          (r.top + r.height / 2 - c.y) * (r.top + r.height / 2 - c.y) ≤ 0 := by
        rw [hd] at h5b
        exact Real.sqrt_eq_zero'.mp h5b
      have hx0 : r.left + r.width / 2 - c.x = 0 := by
        nlinarith [sq_nonneg (r.left + r.width / 2 - c.x),
          sq_nonneg (r.top + r.height / 2 - c.y)]
      have hy0 : r.top + r.height / 2 - c.y = 0 := by
        nlinarith [sq_nonneg (r.left + r.width / 2 - c.x),
          sq_nonneg (r.top + r.height / 2 - c.y)]
      apply h2
      rw [hw] at hx0
      rw [hh] at hy0
      refine ⟨by linarith, by linarith, by linarith, by linarith⟩
  rw [if_neg h5]
  by_cases h6 : vx / s2 * ((r.left + r.width / 2 - c.x) / d) +
      vy / s2 * ((r.top + r.height / 2 - c.y) / d) ≤ 0
  · rw [if_pos h6]
    exact ⟨0, rfl, le_refl 0, zero_le_one⟩
  rw [if_neg h6]
  exact ⟨_, rfl, (hbound _).1, (hbound _).2⟩

/-- Claim C4 counterexample: with `noiseThreshold = 0` (explicitly included
by the claim), three same-tick samples outside the target but within the
influence radius make the JavaScript code return `NaN` (`speed2 = 0`
passes the noise gate, then `vx / speed2` is `0/0`): the returned value is
not a real number in [0, 1]. -/
theorem C4_counterexample :
    getIntentScore cfgZeroNoise testTarget histStill = none := by
  have hb : Real.sqrt (125000 : ℝ) ≤ 800 := by
    calc Real.sqrt (125000 : ℝ) ≤ Real.sqrt 640000 := Real.sqrt_le_sqrt (by norm_num)
    _ = 800 := by rw [show (640000 : ℝ) = 800 ^ 2 by norm_num, Real.sqrt_sq (by norm_num)]
  simp only [getIntentScore, relevantHistoryOf, cfgZeroNoise, histStill, testTarget]
  norm_num [histStill, hb, Real.sqrt_zero, not_lt.2 hb]

/-- Witness for the amended claim C4: at the default configuration
(`noiseThreshold = 0.05 > 0`) and the well-formed test target, on the
stationary same-tick history, there is a numeric score in [0, 1]. -/
theorem C4_witness :
    ∃ x, getIntentScore DEFAULT_CONFIG testTarget histStill = some x ∧ 0 ≤ x ∧ x ≤ 1 := by
  apply C4_score_in_unit_interval
  · norm_num [DEFAULT_CONFIG]
  · norm_num [testTarget]
  · norm_num [testTarget]
  · norm_num [testTarget]
  · norm_num [testTarget]

/-- Claim C5 (amended): for every configured `historySize ≥ 1` the score
depends only on the trailing `historySize` samples of the history, and
whenever fewer than 3 samples are available in that window the score is 0.
(For `historySize = 0`, JavaScript `slice(-0)` keeps the whole history —
see the counterexample.) -/
theorem C5_windowing (cfg : VectorConfig) (r : Rect) (h : List Point)
    (hn : 1 ≤ cfg.historySize) :
    getIntentScore cfg r h = getIntentScore cfg r (trailing cfg.historySize h) ∧
    ((relevantHistoryOf cfg h).length < 3 → getIntentScore cfg r h = some 0) := by
  constructor
  · exact getIntentScore_eq_of_relevant_eq cfg r (relevantHistoryOf_trailing cfg h hn).symm
  · intro hlen
    simp only [getIntentScore]
    rw [if_pos hlen]

/-- Claim C5 counterexample: with `historySize = 0` the code scores the
whole history (JavaScript `slice(-0)` = `slice(0)`), while the trailing 0
samples score 0 — the claimed equality fails at n = 0. -/
theorem C5_counterexample :
    getIntentScore { DEFAULT_CONFIG with historySize := 0 } testTarget (hist9 0) ≠
      getIntentScore { DEFAULT_CONFIG with historySize := 0 } testTarget
        (trailing 0 (hist9 0)) := by
  have h1 : getIntentScore { DEFAULT_CONFIG with historySize := 0 } testTarget (hist9 0) =
      some (13 / 16) := getIntentScore_hist9 0 0 (Or.inl rfl)
  have htr : trailing 0 (hist9 0) = [] := rfl
  have h2 : getIntentScore { DEFAULT_CONFIG with historySize := 0 } testTarget
      (trailing 0 (hist9 0)) = some 0 := by
    rw [htr]
    simp [getIntentScore, relevantHistoryOf]
  rw [h1, h2]
  simp

/-- Witness for the amended claim C5, at the default configuration: the
score of the strong-intent history equals the score of its trailing-6
window, and a one-sample history (window shorter than 3) scores 0. -/
theorem C5_witness :
    getIntentScore DEFAULT_CONFIG testTarget (hist9 0) =
      getIntentScore DEFAULT_CONFIG testTarget (trailing 6 (hist9 0)) ∧
    getIntentScore DEFAULT_CONFIG testTarget histInside1 = some 0 := by
  constructor
  · exact (C5_windowing DEFAULT_CONFIG testTarget (hist9 0) (by norm_num [DEFAULT_CONFIG])).1
  · exact (C5_windowing DEFAULT_CONFIG testTarget histInside1
      (by norm_num [DEFAULT_CONFIG])).2
      (by norm_num [relevantHistoryOf, DEFAULT_CONFIG, histInside1])

/-! ## The controller invariant and its preservation -/

theorem inv_initialState (α : Type) : Inv (initialState α) := by
  refine ⟨rfl, (fun _ => rfl), (fun _ => rfl), (fun _ => rfl), (fun hc => nomatch hc),
    (fun hc => nomatch hc), (fun hc => nomatch hc), ?_, ?_, List.nodup_nil, ?_⟩ <;>
    intro k hk <;> first | exact absurd hk (List.not_mem_nil k) | rfl

theorem inv_unmountCleanup {α : Type} (s : ControllerState α) (hI : Inv s) :
    Inv (unmountCleanup s) := by
  obtain ⟨he, hish, hire, hsre, hsab, hrc, hcpr, hpu, hpl, hpn, hfu⟩ := hI
  unfold unmountCleanup
  rcases hac : s.abortController with _ | k <;> dsimp only <;>
    exact ⟨he, hish, hire, hsre, (fun hs => hac.symm.trans (hsab hs)), hrc, hcpr, hpu, hpl,
      hpn, hfu⟩

theorem inv_graceTimerFire {α : Type} (s : ControllerState α) (hI : Inv s) :
    Inv (graceTimerFire s) := by
  obtain ⟨he, hish, hire, hsre, hsab, hrc, hcpr, hpu, hpl, hpn, hfu⟩ := hI
  unfold graceTimerFire transitionTo
  by_cases hg : s.graceTimer
  · rw [if_pos hg]
    dsimp only
    exact ⟨he, (fun _ => rfl), (fun _ => rfl), (fun hc => nomatch hc), (fun hc => nomatch hc),
      (fun hc => nomatch hc), (fun hc => nomatch hc), hpu, hpl, hpn, hfu⟩
  · rw [if_neg hg]
    exact ⟨he, hish, hire, hsre, hsab, hrc, hcpr, hpu, hpl, hpn, hfu⟩

theorem inv_triggerSpeculation {α : Type} (s : ControllerState α) (hI : Inv s)
    (hidle : s.status = .idle) : Inv (triggerSpeculation s) := by
  obtain ⟨he, hish, hire, hsre, hsab, hrc, hcpr, hpu, hpl, hpn, hfu⟩ := hI
  unfold triggerSpeculation transitionTo
  by_cases hsh : s.shadowPromise.isSome
  · rw [if_pos hsh]
    exact ⟨he, hish, hire, hsre, hsab, hrc, hcpr, hpu, hpl, hpn, hfu⟩
  · rw [if_neg hsh]
    dsimp only
    refine ⟨he, (fun hc => nomatch hc), (fun hc => nomatch hc), (fun _ => hire hidle),
      (fun _ => rfl), (fun hc => nomatch hc), (fun hc => nomatch hc), ?_, ?_, ?_, ?_⟩
    · intro k hk
      rcases List.mem_append.mp hk with hk | hk
      · exact hpu k hk
      · rw [List.mem_singleton.mp hk]
        exact hfu _ le_rfl
    · intro k hk
      rcases List.mem_append.mp hk with hk | hk
      · exact Nat.lt_succ_of_lt (hpl k hk)
      · rw [List.mem_singleton.mp hk]
        exact Nat.lt_succ_self _
    · rw [List.nodup_append]
      refine ⟨hpn, List.nodup_singleton _, ?_⟩
      intro k hk hk2
      rw [List.mem_singleton.mp hk2] at hk
      exact absurd (hpl _ hk) (lt_irrefl _)
    · intro k hk
      have hk2 : s.nextHandle + 1 ≤ k := hk
      exact hfu k (by omega)

theorem inv_cancelSpeculation {α : Type} (s : ControllerState α) (hI : Inv s)
    (hspec : s.status = .speculating) : Inv (cancelSpeculation s) := by
  obtain ⟨he, hish, hire, hsre, hsab, hrc, hcpr, hpu, hpl, hpn, hfu⟩ := hI
  unfold cancelSpeculation transitionTo
  rcases hac : s.abortController with _ | k <;> dsimp only <;>
    exact ⟨he, (fun _ => rfl), (fun _ => hsre hspec), (fun hc => nomatch hc),
      (fun hc => nomatch hc), (fun hc => nomatch hc), (fun hc => nomatch hc), hpu, hpl,
      hpn, hfu⟩

theorem inv_handleTick {α : Type} (cfg : PrecognitionConfig) (s : ControllerState α)
    (sc : ℚ) (hI : Inv s) : Inv (handleTick cfg s sc) := by
  have hI2 := hI
  unfold handleTick
  by_cases hg : ¬ (s.mounted ∧ s.envSafe)
  · rw [if_pos hg]
    exact hI2
  rw [if_neg hg]
  rcases hst : s.status with _ | _ | _ | _ <;> dsimp only
  · by_cases hsc : sc > cfg.sensitivity
    · rw [if_pos hsc]
      exact inv_triggerSpeculation s hI2 hst
    · rw [if_neg hsc]
      exact hI2
  · by_cases hsc : sc < cfg.sensitivity * (2 / 5)
    · rw [if_pos hsc]
      exact inv_cancelSpeculation s hI2 hst
    · rw [if_neg hsc]
      exact hI2
  · obtain ⟨he, hish, hire, hsre, hsab, hrc, hcpr, hpu, hpl, hpn, hfu⟩ := hI2
    have hnew : ∀ b : Bool,
        Inv (⟨.ready, s.result, s.shadowPromise, b, s.abortController, s.mounted,
          s.envSafe, s.nextHandle, s.pending, s.invocations, s.abortSignalled,
          s.outcomes⟩ : ControllerState α) := by
      intro b
      exact ⟨he, (fun hc => nomatch hc), (fun hc => nomatch hc), (fun hc => nomatch hc),
        (fun hc => nomatch hc), (fun _ => hrc hst), (fun hc => nomatch hc), hpu, hpl,
        hpn, hfu⟩
    by_cases hsc : sc < cfg.sensitivity * (2 / 5)
    · rw [if_pos hsc]
      by_cases hgt : s.graceTimer
      · rw [if_pos hgt]
        exact ⟨he, hish, hire, hsre, hsab, hrc, hcpr, hpu, hpl, hpn, hfu⟩
      · rw [if_neg hgt]
        exact hnew true
    · rw [if_neg hsc]
      by_cases hgt : s.graceTimer
      · rw [if_pos hgt]
        exact hnew false
      · rw [if_neg hgt]
        exact ⟨he, hish, hire, hsre, hsab, hrc, hcpr, hpu, hpl, hpn, hfu⟩
  · exact hI2

theorem inv_settleResolve {α : Type} (s : ControllerState α) (handle : ℕ) (data : α)
    (hI : Inv s) : Inv (settleResolve s handle data) := by
  obtain ⟨he, hish, hire, hsre, hsab, hrc, hcpr, hpu, hpl, hpn, hfu⟩ := hI
  unfold settleResolve onResolve transitionTo
  by_cases hmem : handle ∈ s.pending
  case neg =>
    rw [if_neg hmem]
    exact ⟨he, hish, hire, hsre, hsab, hrc, hcpr, hpu, hpl, hpn, hfu⟩
  rw [if_pos hmem]
  dsimp only
  have hpu' : ∀ k ∈ s.pending.erase handle,
      (if k = handle then some data else s.outcomes k) = none := by
    intro k hk
    obtain ⟨hne, hk2⟩ := (List.Nodup.mem_erase_iff hpn).mp hk
    rw [if_neg hne]
    exact hpu k hk2
  have hpl' : ∀ k ∈ s.pending.erase handle, k < s.nextHandle :=
    fun k hk => hpl k (List.mem_of_mem_erase hk)
  have hpn' : (s.pending.erase handle).Nodup := hpn.erase handle
  have hfu' : ∀ k, s.nextHandle ≤ k →
      (if k = handle then some data else s.outcomes k) = none := by
    intro k hk
    have hlt := hpl handle hmem
    rw [if_neg (by omega)]
    exact hfu k hk
  have hrc' : s.status = .ready → ∃ h0 v0, s.shadowPromise = some h0 ∧ s.result = some v0 ∧
      (if h0 = handle then some data else s.outcomes h0) = some v0 := by
    intro hst
    obtain ⟨h0, v0, hs0, hr0, ho0⟩ := hrc hst
    have hne : h0 ≠ handle := by
      intro heq
      rw [heq, hpu handle hmem] at ho0
      exact Option.noConfusion ho0
    refine ⟨h0, v0, hs0, hr0, ?_⟩
    rw [if_neg hne]
    exact ho0
  have hcpr' : s.status = .committed → ∀ k, s.shadowPromise = some k →
      k ∈ s.pending.erase handle → s.result = none :=
    fun hc k hsk hkp => hcpr hc k hsk (List.mem_of_mem_erase hkp)
  by_cases hm : ¬ s.mounted
  · rw [if_pos hm]
    exact ⟨he, hish, hire, hsre, hsab, hrc', hcpr', hpu', hpl', hpn', hfu'⟩
  rw [if_neg hm]
  by_cases hsh : s.shadowPromise = some handle
  case neg =>
    rw [if_neg hsh]
    exact ⟨he, hish, hire, hsre, hsab, hrc', hcpr', hpu', hpl', hpn', hfu'⟩
  rw [if_pos hsh]
  by_cases hcm : s.status ≠ .committed
  · rw [if_pos hcm]
    refine ⟨he, (fun hc => nomatch hc), (fun hc => nomatch hc), (fun hc => nomatch hc),
      (fun hc => nomatch hc), (fun _ => ⟨handle, data, hsh, rfl, by
        show (if handle = handle then some data else s.outcomes handle) = some data
        rw [if_pos rfl]⟩),
      (fun hc => nomatch hc), hpu', hpl', hpn', hfu'⟩
  · rw [if_neg hcm]
    have hcm2 : s.status = .committed := not_not.mp hcm
    refine ⟨he, (fun hc => nomatch hcm2.symm.trans hc), (fun hc => nomatch hcm2.symm.trans hc),
      (fun hc => nomatch hcm2.symm.trans hc), (fun hc => nomatch hcm2.symm.trans hc),
      (fun hc => nomatch hcm2.symm.trans hc), ?_, hpu', hpl', hpn', hfu'⟩
    intro _ k hsk hkp
    exfalso
    rw [hsh] at hsk
    obtain rfl : handle = k := Option.some.inj hsk
    exact ((List.Nodup.mem_erase_iff hpn).mp hkp).1 rfl

theorem inv_settleReject {α : Type} (s : ControllerState α) (handle : ℕ)
    (hI : Inv s) : Inv (settleReject s handle) := by
  obtain ⟨he, hish, hire, hsre, hsab, hrc, hcpr, hpu, hpl, hpn, hfu⟩ := hI
  unfold settleReject onReject transitionTo
  by_cases hmem : handle ∈ s.pending
  case neg =>
    rw [if_neg hmem]
    exact ⟨he, hish, hire, hsre, hsab, hrc, hcpr, hpu, hpl, hpn, hfu⟩
  rw [if_pos hmem]
  dsimp only
  have hpu' : ∀ k ∈ s.pending.erase handle, s.outcomes k = none :=
    fun k hk => hpu k (List.mem_of_mem_erase hk)
  have hpl' : ∀ k ∈ s.pending.erase handle, k < s.nextHandle :=
    fun k hk => hpl k (List.mem_of_mem_erase hk)
  have hpn' : (s.pending.erase handle).Nodup := hpn.erase handle
  have hcpr' : s.status = .committed → ∀ k, s.shadowPromise = some k →
      k ∈ s.pending.erase handle → s.result = none :=
    fun hc k hsk hkp => hcpr hc k hsk (List.mem_of_mem_erase hkp)
  by_cases hg : s.mounted ∧ s.shadowPromise = some handle
  · rw [if_pos hg]
    have hres : s.result = none := by
      rcases hst4 : s.status with _ | _ | _ | _
      · exact hire hst4
      · exact hsre hst4
      · exfalso
        obtain ⟨h0, v0, hs0, hr0, ho0⟩ := hrc hst4
        rw [hg.2] at hs0
        obtain rfl : handle = h0 := Option.some.inj hs0
        rw [hpu handle hmem] at ho0
        exact Option.noConfusion ho0
      · exact hcpr hst4 handle hg.2 hmem
    exact ⟨he, (fun _ => rfl), (fun _ => hres), (fun hc => nomatch hc), (fun hc => nomatch hc),
      (fun hc => nomatch hc), (fun hc => nomatch hc), hpu', hpl', hpn', hfu⟩
  · rw [if_neg hg]
    exact ⟨he, hish, hire, hsre, hsab, hrc, hcpr', hpu', hpl', hpn', hfu⟩

theorem inv_commit {α : Type} (truthy : α → Bool) (s : ControllerState α)
    (hI : Inv s) : Inv (commit truthy s).1 := by
  obtain ⟨he, hish, hire, hsre, hsab, hrc, hcpr, hpu, hpl, hpn, hfu⟩ := hI
  have happend1 : ∀ k ∈ s.pending ++ [s.nextHandle], s.outcomes k = none := by
    intro k hk
    rcases List.mem_append.mp hk with hk | hk
    · exact hpu k hk
    · rw [List.mem_singleton.mp hk]
      exact hfu _ le_rfl
  have happend2 : ∀ k ∈ s.pending ++ [s.nextHandle], k < s.nextHandle + 1 := by
    intro k hk
    rcases List.mem_append.mp hk with hk | hk
    · exact Nat.lt_succ_of_lt (hpl k hk)
    · rw [List.mem_singleton.mp hk]
      exact Nat.lt_succ_self _
  have happend3 : (s.pending ++ [s.nextHandle]).Nodup := by
    rw [List.nodup_append]
    refine ⟨hpn, List.nodup_singleton _, ?_⟩
    intro k hk hk2
    rw [List.mem_singleton.mp hk2] at hk
    exact absurd (hpl _ hk) (lt_irrefl _)
  have happend4 : ∀ k, s.nextHandle + 1 ≤ k → s.outcomes k = none :=
    fun k hk => hfu k (by omega)
  unfold commit commitFallback transitionTo
  rcases hres : s.result with _ | v <;> dsimp only
  · rcases hsh : s.shadowPromise with _ | k <;> dsimp only
    · exact ⟨he, (fun hc => nomatch hc), (fun hc => nomatch hc), (fun hc => nomatch hc),
        (fun hc => nomatch hc), (fun hc => nomatch hc), (fun _ _ hsk _ => nomatch hsk),
        happend1, happend2, happend3, happend4⟩
    · exact ⟨he, (fun hc => nomatch hc), (fun hc => nomatch hc), (fun hc => nomatch hc),
        (fun hc => nomatch hc), (fun hc => nomatch hc), (fun _ _ _ _ => rfl),
        hpu, hpl, hpn, hfu⟩
  · by_cases hrd : s.status = SpeculationStatus.ready ∧ truthy v = true
    · rw [if_pos hrd]
      dsimp only
      refine ⟨he, (fun hc => nomatch hc), (fun hc => nomatch hc), (fun hc => nomatch hc),
        (fun hc => nomatch hc), (fun hc => nomatch hc), ?_, hpu, hpl, hpn, hfu⟩
      intro _ k hsk hkp
      exfalso
      obtain ⟨h0, v0, hs0, hr0, ho0⟩ := hrc hrd.1
      rw [hs0] at hsk
      obtain rfl : h0 = k := Option.some.inj hsk
      rw [hpu h0 hkp] at ho0
      exact Option.noConfusion ho0
    · rw [if_neg hrd]
      rcases hsh : s.shadowPromise with _ | k <;> dsimp only
      · exact ⟨he, (fun hc => nomatch hc), (fun hc => nomatch hc), (fun hc => nomatch hc),
          (fun hc => nomatch hc), (fun hc => nomatch hc), (fun _ _ hsk _ => nomatch hsk),
          happend1, happend2, happend3, happend4⟩
      · refine ⟨he, (fun hc => nomatch hc), (fun hc => nomatch hc), (fun hc => nomatch hc),
          (fun hc => nomatch hc), (fun hc => nomatch hc), ?_, hpu, hpl, hpn, hfu⟩
        intro _ k2 hsk hkp
        exfalso
        obtain rfl : k = k2 := Option.some.inj hsk
        rcases hst4 : s.status with _ | _ | _ | _
        · exact Option.noConfusion ((hish hst4).symm.trans hsh)
        · exact Option.noConfusion ((hsre hst4).symm.trans hres)
        · obtain ⟨h0, v0, hs0, hr0, ho0⟩ := hrc hst4
          rw [hsh] at hs0
          obtain rfl : k = h0 := Option.some.inj hs0
          rw [hpu k hkp] at ho0
          exact Option.noConfusion ho0
        · exact Option.noConfusion ((hcpr hst4 k hsh hkp).symm.trans hres)

theorem inv_step {α : Type} (cfg : PrecognitionConfig) (truthy : α → Bool)
    (s : ControllerState α) (e : ControllerEvent α) (hI : Inv s) :
    Inv (step cfg truthy s e) := by
  cases e with
  | tick sc => exact inv_handleTick cfg s sc hI
  | resolve handle data => exact inv_settleResolve s handle data hI
  | reject handle b => exact inv_settleReject s handle hI
  | graceFire => exact inv_graceTimerFire s hI
  | commitCall => exact inv_commit truthy s hI
  | unmount => exact inv_unmountCleanup s hI

theorem inv_run {α : Type} (cfg : PrecognitionConfig) (truthy : α → Bool)
    (s : ControllerState α) (evs : List (ControllerEvent α)) (hI : Inv s) :
    Inv (run cfg truthy s evs) := by
  induction evs generalizing s with
  | nil => exact hI
  | cons e es ih => exact ih _ (inv_step cfg truthy s e hI)

theorem inv_reachable {α : Type} (cfg : PrecognitionConfig) (truthy : α → Bool)
    (evs : List (ControllerEvent α)) : Inv (run cfg truthy (initialState α) evs) :=
  inv_run cfg truthy _ evs (inv_initialState α)

/-- Claim C9: with the default parameters, the target
`{left:200, top:200, right:300, bottom:300, width:100, height:100}` and
the history `[(0,250,t0), (50,250,t0+16), (100,250,t0+32)]` score exactly
13/16 = 0.8125 for every base timestamp `t0`, which is strictly greater
than 0.5. -/
theorem C9_strong_intent_scenario (t0 : ℝ) :
    getIntentScore DEFAULT_CONFIG testTarget (hist9 t0) = some (13 / 16) ∧
    (1 / 2 : ℝ) < 13 / 16 := by
  refine ⟨?_, by norm_num⟩
  have h := getIntentScore_hist9 t0 6 (Or.inr (by norm_num))
  exact h

/-! ## The controller claims -/

/-- Claim C1 (refuted by the code — the claim states the intent): the code's
grace-timer callback checks no status before resetting, so a grace timer
armed while `ready` and left pending at `commit()` still fires after the
commit, moving status from `committed` back to `idle` and clearing the
cached result.  (The rejection handler is likewise unguarded.)  This
theorem evaluates the model on that scenario: after
`[tick 1, resolve 0 1, tick 0, commit()]` the controller is `committed`
with the timer armed and the result cached, and the subsequent timer
firing leaves it `idle` with the result cleared. -/
theorem C1_grace_timer_fires_after_commit :
    (run cfgHalf intTruthy (initialState ℤ) c1Events).status = .committed ∧
    (run cfgHalf intTruthy (initialState ℤ) c1Events).graceTimer = true ∧
    (run cfgHalf intTruthy (initialState ℤ) c1Events).result = some 1 ∧
    (run cfgHalf intTruthy (initialState ℤ) (c1Events ++ [.graceFire])).status = .idle ∧
    (run cfgHalf intTruthy (initialState ℤ) (c1Events ++ [.graceFire])).result = none := by
  norm_num +decide [run, step, handleTick, cfgHalf, initialState, triggerSpeculation,
    transitionTo, settleResolve, onResolve, settleReject, onReject, graceTimerFire, commit,
    commitFallback, intTruthy, c1Events, cancelSpeculation]

/-- Claim C6: in every reachable `idle` state the shadow promise is empty,
a tick whose score exceeds `sensitivity` starts exactly one action
invocation and moves to `speculating`, and no tick on any state with a
shadow promise in flight starts an additional invocation. -/
theorem C6_single_speculation {α : Type} (cfg : PrecognitionConfig) (truthy : α → Bool)
    (evs : List (ControllerEvent α)) (sc : ℚ) (s : ControllerState α)
    (hs : run cfg truthy (initialState α) evs = s)
    (hIdle : s.status = .idle) (hM : s.mounted = true) (hHigh : cfg.sensitivity < sc) :
    s.shadowPromise = none ∧
    (step cfg truthy s (.tick sc)).status = .speculating ∧
    (step cfg truthy s (.tick sc)).invocations = s.invocations + 1 ∧
    ∀ (t : ControllerState α) (sc2 : ℚ), t.shadowPromise.isSome = true →
      (step cfg truthy t (.tick sc2)).invocations = t.invocations := by
  have hInv : Inv s := hs ▸ inv_reachable cfg truthy evs
  have hsh : s.shadowPromise = none := hInv.idle_shadow hIdle
  have henv : s.envSafe = true := hInv.envSafe_eq
  have hstep : step cfg truthy s (.tick sc) = triggerSpeculation s := by
    show handleTick cfg s sc = triggerSpeculation s
    unfold handleTick
    rw [hIdle]
    simp [hM, henv, hHigh]
  have htrig : triggerSpeculation s =
      { transitionTo s .speculating with
        abortController := some s.nextHandle, shadowPromise := some s.nextHandle,
        nextHandle := s.nextHandle + 1, pending := s.pending ++ [s.nextHandle],
        invocations := s.invocations + 1 } := by
    unfold triggerSpeculation
    rw [hsh]
    simp [transitionTo]
  refine ⟨hsh, by rw [hstep, htrig]; try rfl, by rw [hstep, htrig]; try rfl, ?_⟩
  intro t sc2 hts
  show (handleTick cfg t sc2).invocations = t.invocations
  unfold handleTick
  by_cases hg : ¬ (t.mounted ∧ t.envSafe)
  · rw [if_pos hg]
  rw [if_neg hg]
  rcases ht4 : t.status with _ | _ | _ | _ <;> dsimp only
  · by_cases hsc2 : sc2 > cfg.sensitivity
    · rw [if_pos hsc2]
      unfold triggerSpeculation
      rw [if_pos hts]
    · rw [if_neg hsc2]
  · by_cases hsc2 : sc2 < cfg.sensitivity * (2 / 5)
    · rw [if_pos hsc2]
      unfold cancelSpeculation transitionTo
      rcases hac : t.abortController with _ | k <;> rfl
    · rw [if_neg hsc2]
  · by_cases hsc2 : sc2 < cfg.sensitivity * (2 / 5)
    · rw [if_pos hsc2]
      by_cases hgt : t.graceTimer
      · rw [if_pos hgt]
      · rw [if_neg hgt]
    · rw [if_neg hsc2]
      by_cases hgt : t.graceTimer
      · rw [if_pos hgt]
      · rw [if_neg hgt]

/-- Witness for claim C6 at a concrete controller: from the freshly mounted
`idle` state a score of 1 (sensitivity 0.5) triggers exactly one
invocation, and a second high-score tick while the speculation is in
flight starts none. -/
theorem C6_witness :
    (initialState ℤ).shadowPromise = none ∧
    (step cfgHalf intTruthy (initialState ℤ) (.tick 1)).status = .speculating ∧
    (step cfgHalf intTruthy (initialState ℤ) (.tick 1)).invocations =
      (initialState ℤ).invocations + 1 ∧
    (step cfgHalf intTruthy (run cfgHalf intTruthy (initialState ℤ) [.tick 1])
        (.tick 1)).invocations =
      (run cfgHalf intTruthy (initialState ℤ) [.tick 1]).invocations := by
  obtain ⟨h1, h2, h3, h4⟩ := C6_single_speculation cfgHalf intTruthy [] 1 (initialState ℤ)
    rfl rfl rfl (by norm_num [cfgHalf])
  refine ⟨h1, h2, h3, h4 _ 1 ?_⟩
  norm_num +decide [run, step, handleTick, cfgHalf, initialState, triggerSpeculation,
    transitionTo]

/-- Claim C7: the `commit()` contract.  In a reachable `ready` state with a
cached result `v`, `commit()` transitions to `committed` without a new
action invocation and returns the cached value — directly when `v` is
truthy, and as the retained settled shadow promise (which settled with
`v`) when `v` is falsy.  In a reachable `idle` state, `commit()`
transitions to `committed` and invokes the action exactly once, returning
the fresh invocation's outcome. -/
theorem C7_commit_contract {α : Type} (cfg : PrecognitionConfig) (truthy : α → Bool)
    (evs : List (ControllerEvent α)) (s : ControllerState α)
    (hs : run cfg truthy (initialState α) evs = s) :
    (∀ v : α, s.status = .ready → s.result = some v →
      (commit truthy s).1.status = .committed ∧
      (commit truthy s).1.invocations = s.invocations ∧
      (truthy v = true → (commit truthy s).2 = .cachedResult v) ∧
      (truthy v = false → ∃ h, (commit truthy s).2 = .inFlightPromise h ∧
        s.shadowPromise = some h ∧ s.outcomes h = some v)) ∧
    (s.status = .idle →
      (commit truthy s).1.status = .committed ∧
      (commit truthy s).2 = .freshInvocation s.nextHandle ∧
      (commit truthy s).1.invocations = s.invocations + 1) := by
  have hInv : Inv s := hs ▸ inv_reachable cfg truthy evs
  constructor
  · intro v hready hres
    unfold commit commitFallback transitionTo
    rw [hres]
    dsimp only
    by_cases htr : truthy v = true
    · rw [if_pos ⟨hready, htr⟩]
      exact ⟨rfl, rfl, (fun _ => rfl), (fun hf => absurd htr (by rw [hf]; simp))⟩
    · rw [if_neg (fun hc => htr hc.2)]
      obtain ⟨h0, v0, hsh0, hres0, hout0⟩ := hInv.ready_cache hready
      have hv : v0 = v := Option.some.inj (hres0.symm.trans hres)
      rw [hsh0]
      dsimp only
      refine ⟨rfl, rfl, (fun ht => absurd ht htr), (fun _ => ⟨h0, rfl, rfl, ?_⟩)⟩
      rw [← hv]
      exact hout0
  · intro hidle
    have hsh : s.shadowPromise = none := hInv.idle_shadow hidle
    have hres : s.result = none := hInv.idle_result hidle
    unfold commit commitFallback transitionTo
    rw [hres, hsh]
    dsimp only
    exact ⟨rfl, rfl, rfl⟩

/-- Witness for claim C7: after a resolved speculation caching the value 5,
`commit()` returns the cached value; and from the fresh `idle` controller,
`commit()` issues exactly one fresh invocation. -/
theorem C7_witness :
    (commit intTruthy (run cfgHalf intTruthy (initialState ℤ) [.tick 1, .resolve 0 5])).2 =
      .cachedResult 5 ∧
    (commit intTruthy (run cfgHalf intTruthy (initialState ℤ)
        [.tick 1, .resolve 0 5])).1.status = .committed ∧
    (commit intTruthy (initialState ℤ)).1.status = .committed ∧
    (commit intTruthy (initialState ℤ)).2 = .freshInvocation 0 ∧
    (commit intTruthy (initialState ℤ)).1.invocations = 1 := by
  have hA := (C7_commit_contract cfgHalf intTruthy [.tick 1, .resolve 0 5] _ rfl).1 5
    (by norm_num +decide [run, step, handleTick, cfgHalf, initialState, triggerSpeculation,
      transitionTo, settleResolve, onResolve, intTruthy])
    (by norm_num +decide [run, step, handleTick, cfgHalf, initialState, triggerSpeculation,
      transitionTo, settleResolve, onResolve, intTruthy])
  have hB := (C7_commit_contract cfgHalf intTruthy [] _ rfl).2 rfl
  exact ⟨hA.2.2.1 rfl, hA.1, hB.1, hB.2.1, hB.2.2⟩

/-- Claim C8: from a reachable `speculating` state, a tick whose score lies
below `abortThreshold = sensitivity * 0.4` signals `abort()` to the
in-flight action's controller, clears the shadow promise (the cached
result was already empty while speculating), and returns to `idle`; and
for any state whose shadow promise is no longer that handle, the cancelled
promise's later resolution or rejection changes none of the
controller-visible fields — stale completions are filtered by the
handle-identity check. -/
theorem C8_cancel_on_score_drop {α : Type} (cfg : PrecognitionConfig) (truthy : α → Bool)
    (evs : List (ControllerEvent α)) (sc : ℚ) (s : ControllerState α) (h : ℕ)
    (hs : run cfg truthy (initialState α) evs = s)
    (hSp : s.status = .speculating) (hSh : s.shadowPromise = some h)
    (hM : s.mounted = true) (hLow : sc < cfg.sensitivity * (2 / 5)) :
    (step cfg truthy s (.tick sc)).status = .idle ∧
    (step cfg truthy s (.tick sc)).shadowPromise = none ∧
    (step cfg truthy s (.tick sc)).result = none ∧
    h ∈ (step cfg truthy s (.tick sc)).abortSignalled ∧
    ∀ (t : ControllerState α) (v : α) (b : Bool), t.shadowPromise ≠ some h →
      ((step cfg truthy t (.resolve h v)).status = t.status ∧
        (step cfg truthy t (.resolve h v)).result = t.result ∧
        (step cfg truthy t (.resolve h v)).shadowPromise = t.shadowPromise ∧
        (step cfg truthy t (.resolve h v)).graceTimer = t.graceTimer ∧
        (step cfg truthy t (.resolve h v)).invocations = t.invocations) ∧
      ((step cfg truthy t (.reject h b)).status = t.status ∧
        (step cfg truthy t (.reject h b)).result = t.result ∧
        (step cfg truthy t (.reject h b)).shadowPromise = t.shadowPromise ∧
        (step cfg truthy t (.reject h b)).graceTimer = t.graceTimer ∧
        (step cfg truthy t (.reject h b)).invocations = t.invocations) := by
  have hInv : Inv s := hs ▸ inv_reachable cfg truthy evs
  have henv : s.envSafe = true := hInv.envSafe_eq
  have hres : s.result = none := hInv.spec_result hSp
  have hab : s.abortController = some h := (hInv.spec_abort hSp).trans hSh
  have hstep : step cfg truthy s (.tick sc) = cancelSpeculation s := by
    show handleTick cfg s sc = cancelSpeculation s
    unfold handleTick
    rw [hSp]
    simp [hM, henv, hLow]
  have hcancel : cancelSpeculation s =
      { transitionTo { s with
          abortSignalled := s.abortSignalled ++ [h], abortController := none } .idle with
        shadowPromise := none } := by
    unfold cancelSpeculation transitionTo
    rw [hab]
  refine ⟨by rw [hstep, hcancel]; try rfl, by rw [hstep, hcancel]; try rfl,
    by rw [hstep, hcancel]; exact hres,
    by rw [hstep, hcancel]; exact List.mem_append_right _ (List.mem_singleton_self h), ?_⟩
  intro t v b hne
  constructor
  · show ((settleResolve t h v).status = t.status ∧ (settleResolve t h v).result = t.result ∧
      (settleResolve t h v).shadowPromise = t.shadowPromise ∧
      (settleResolve t h v).graceTimer = t.graceTimer ∧
      (settleResolve t h v).invocations = t.invocations)
    unfold settleResolve onResolve
    by_cases hmem : h ∈ t.pending
    case neg =>
      rw [if_neg hmem]
      exact ⟨rfl, rfl, rfl, rfl, rfl⟩
    rw [if_pos hmem]
    dsimp only
    by_cases hmo : ¬ t.mounted
    · rw [if_pos hmo]
      exact ⟨rfl, rfl, rfl, rfl, rfl⟩
    · rw [if_neg hmo, if_neg hne]
      exact ⟨rfl, rfl, rfl, rfl, rfl⟩
  · show ((settleReject t h).status = t.status ∧ (settleReject t h).result = t.result ∧
      (settleReject t h).shadowPromise = t.shadowPromise ∧
      (settleReject t h).graceTimer = t.graceTimer ∧
      (settleReject t h).invocations = t.invocations)
    unfold settleReject onReject
    by_cases hmem : h ∈ t.pending
    case neg =>
      rw [if_neg hmem]
      exact ⟨rfl, rfl, rfl, rfl, rfl⟩
    rw [if_pos hmem]
    dsimp only
    rw [if_neg (fun hc => hne hc.2)]
    exact ⟨rfl, rfl, rfl, rfl, rfl⟩

/-- Witness for claim C8: with sensitivity 0.5, a tick scoring 0 (below
the 0.2 abort threshold) while speculation 0 is in flight aborts it,
clears the shadow promise and returns to `idle`; the cancelled promise's
later rejection then changes nothing. -/
theorem C8_witness :
    (step cfgHalf intTruthy (run cfgHalf intTruthy (initialState ℤ) [.tick 1])
        (.tick 0)).status = .idle ∧
    (step cfgHalf intTruthy (run cfgHalf intTruthy (initialState ℤ) [.tick 1])
        (.tick 0)).shadowPromise = none ∧
    0 ∈ (step cfgHalf intTruthy (run cfgHalf intTruthy (initialState ℤ) [.tick 1])
        (.tick 0)).abortSignalled ∧
    (step cfgHalf intTruthy (run cfgHalf intTruthy (initialState ℤ) [.tick 1, .tick 0])
        (.reject 0 true)).status =
      (run cfgHalf intTruthy (initialState ℤ) [.tick 1, .tick 0]).status := by
  have h := C8_cancel_on_score_drop cfgHalf intTruthy [.tick 1] 0 _ 0 rfl
    (by norm_num +decide [run, step, handleTick, cfgHalf, initialState, triggerSpeculation,
      transitionTo])
    (by norm_num +decide [run, step, handleTick, cfgHalf, initialState, triggerSpeculation,
      transitionTo])
    (by norm_num +decide [run, step, handleTick, cfgHalf, initialState, triggerSpeculation,
      transitionTo])
    (by norm_num [cfgHalf])
  refine ⟨h.1, h.2.1, h.2.2.2.1, ?_⟩
  have hstale := (h.2.2.2.2 (run cfgHalf intTruthy (initialState ℤ) [.tick 1, .tick 0]) 0 true
    (by norm_num +decide [run, step, handleTick, cfgHalf, initialState, triggerSpeculation,
      transitionTo, cancelSpeculation])).2
  exact hstale.1

/-- Claim C10: in a reachable `ready` state whose cached result is falsy,
`commit()` skips the ready-branch yet still invokes no second action: it
transitions to `committed` and returns the retained shadow promise, which
already settled with the same cached value. -/
theorem C10_commit_falsy_result {α : Type} (cfg : PrecognitionConfig) (truthy : α → Bool)
    (evs : List (ControllerEvent α)) (s : ControllerState α) (v : α)
    (hs : run cfg truthy (initialState α) evs = s)
    (hReady : s.status = .ready) (hRes : s.result = some v)
    (hFalsy : truthy v = false) :
    (commit truthy s).1.status = .committed ∧
    (commit truthy s).1.invocations = s.invocations ∧
    ∃ h, s.shadowPromise = some h ∧ (commit truthy s).2 = .inFlightPromise h ∧
      s.outcomes h = some v := by
  have hInv : Inv s := hs ▸ inv_reachable cfg truthy evs
  obtain ⟨h0, v0, hsh0, hres0, hout0⟩ := hInv.ready_cache hReady
  have hv : v0 = v := Option.some.inj (hres0.symm.trans hRes)
  unfold commit commitFallback transitionTo
  rw [hRes]
  dsimp only
  rw [if_neg (fun hc => by rw [hFalsy] at hc; exact Bool.false_ne_true hc.2)]
  rw [hsh0]
  dsimp only
  exact ⟨rfl, rfl, h0, rfl, rfl, hv ▸ hout0⟩

/-- Witness for claim C10: the action resolves with the falsy value 0;
`commit()` still returns the retained shadow promise (which settled with
0) and performs no new invocation. -/
theorem C10_witness :
    (commit intTruthy (run cfgHalf intTruthy (initialState ℤ)
        [.tick 1, .resolve 0 0])).1.status = .committed ∧
    (commit intTruthy (run cfgHalf intTruthy (initialState ℤ)
        [.tick 1, .resolve 0 0])).1.invocations =
      (run cfgHalf intTruthy (initialState ℤ) [.tick 1, .resolve 0 0]).invocations ∧
    ∃ h, (run cfgHalf intTruthy (initialState ℤ) [.tick 1, .resolve 0 0]).shadowPromise =
        some h ∧
      (commit intTruthy (run cfgHalf intTruthy (initialState ℤ)
          [.tick 1, .resolve 0 0])).2 = .inFlightPromise h ∧
      (run cfgHalf intTruthy (initialState ℤ) [.tick 1, .resolve 0 0]).outcomes h =
        some 0 := by
  exact C10_commit_falsy_result cfgHalf intTruthy [.tick 1, .resolve 0 0] _ 0 rfl
    (by norm_num +decide [run, step, handleTick, cfgHalf, initialState, triggerSpeculation,
      transitionTo, settleResolve, onResolve, intTruthy])
    (by norm_num +decide [run, step, handleTick, cfgHalf, initialState, triggerSpeculation,
      transitionTo, settleResolve, onResolve, intTruthy])
    rfl

end Precognition
